import Mathlib

/-!
Verification of the data-filtering and anomaly-overlap core of
`app.py` (stock-price-anomaly dashboard).

The embedding models:
- the dataset loader (app.py lines 31-41): header trimming, Date /
  Adj Close coercion with silent NaN, `dropna`, `sort_values('Date')`;
- the filter & overlap engine (app.py lines 57, 68-70, 91-117):
  date-range + ticker masks, per-model flag == 1 masks, pandas inner
  merges on (Date, Ticker).

Dates are days as `Int` (the result of `pd.to_datetime(..., errors =
coerce)` is `none` for an unparseable cell, `some d` otherwise).
Adj Close cells are `Option ℚ` (`none` models NaN from
`pd.to_numeric(..., errors = coerce)`).  Anomaly flag cells are
`Option ℚ` (`none` models NaN).  A pandas column lookup
`full_data_df[model]` on a missing column raises `KeyError`; the
engine models that failure as `EngineError.unknownModel`.
-/

/-- A row of the stock price table after cell coercion: `Date` parsed
to `some` day index or `none` (NaT), `Ticker` as read, `Adj Close`
parsed to `some` rational or `none` (NaN).  Models one row of
`stock_df` after app.py lines 33-34. -/
structure RawPriceRow where
  date : Option Int
  ticker : String
  adjClose : Option ℚ
deriving Repr, DecidableEq

/-- A row of the anomaly table `full_data_df` after the `Date`
coercion of app.py line 40: `Date`, `Ticker`, and the flag columns as
an association list from column name to cell value (`none` = NaN). -/
structure AnomalyRow where
  date : Option Int
  ticker : String
  flags : List (String × Option ℚ)
deriving Repr, DecidableEq

/-- The anomaly dataframe: its (already trimmed) flag column names and
its rows.  `cols` records which model columns exist, deciding whether
`full_data_df[model]` succeeds or raises `KeyError`. -/
structure AnomalyTable where
  cols : List String
  rows : List AnomalyRow
deriving Repr, DecidableEq

/-- Sort key for a coerced Date cell; rows reaching a sort have had
`dropna` applied, so no `none` remains and the default is irrelevant. -/
def dateKey (d : Option Int) : Int := d.getD 0

/-- Ordering used by `sort_values('Date')` on the price table. -/
def priceLe (a b : RawPriceRow) : Prop := dateKey a.date ≤ dateKey b.date

/-- Ordering used by `sort_values('Date')` on the anomaly table. -/
def anomLe (a b : AnomalyRow) : Prop := dateKey a.date ≤ dateKey b.date

instance : DecidableRel priceLe := fun a b =>
  inferInstanceAs (Decidable (dateKey a.date ≤ dateKey b.date))

instance : DecidableRel anomLe := fun a b =>
  inferInstanceAs (Decidable (dateKey a.date ≤ dateKey b.date))

instance : IsTotal RawPriceRow priceLe := ⟨fun _ _ => Int.le_total _ _⟩

instance : IsTrans RawPriceRow priceLe := ⟨fun _ _ _ => Int.le_trans⟩

instance : IsTotal AnomalyRow anomLe := ⟨fun _ _ => Int.le_total _ _⟩

instance : IsTrans AnomalyRow anomLe := ⟨fun _ _ _ => Int.le_trans⟩

/-- app.py line 35: `stock_df.dropna(subset=['Date', 'Adj Close']).sort_values('Date')`.
Rows whose Date or Adj Close failed coercion are removed, then the
table is sorted ascending by Date. -/
def loadPrices (raw : List RawPriceRow) : List RawPriceRow :=
  List.insertionSort priceLe
    (raw.filter (fun r => r.date.isSome && r.adjClose.isSome))

/-- app.py line 41: `full_data_df.dropna(subset=['Date']).sort_values('Date')`.
Rows whose Date failed coercion are removed, then sorted ascending by
Date; the column set is unchanged. -/
def loadAnomalies (t : AnomalyTable) : AnomalyTable :=
  { cols := t.cols
    rows := List.insertionSort anomLe (t.rows.filter (fun r => r.date.isSome)) }

/-- `str.strip()` on one header name: remove leading and trailing
whitespace characters. -/
def strip (s : String) : String :=
  String.mk
    (((s.data.dropWhile Char.isWhitespace).reverse.dropWhile
      Char.isWhitespace).reverse)

/-- app.py lines 32 and 39: `df.columns.str.strip()` followed by the
exact column lookup `df[name]`.  A required column is found iff some
header, after stripping surrounding whitespace, equals `name`
exactly. -/
def hasColumn (headers : List String) (name : String) : Bool :=
  (headers.map (fun h => strip h)).contains name

/-- The per-interaction filter parameters: the two `st.date_input`
values, the `st.selectbox` ticker, and the two model selections
(app.py lines 46-54). -/
structure FilterParameters where
  startDate : Int
  endDate : Int
  ticker : String
  model1 : String
  model2 : String
deriving Repr, DecidableEq

/-- The spec error taxonomy for the engine: `invalidRange` is the
app.py line 57 guard; `unknownModel` is the failure of a flag-column
lookup `full_data_df[model]` (pandas `KeyError`). -/
inductive EngineError where
  | invalidRange
  | unknownModel
deriving Repr, DecidableEq

/-- app.py line 52: the enumerated model names offered by the two
selectboxes. -/
def model_options : List String :=
  ["baseline", "svm", "dbscan_pca", "dbscan_nonpca", "isolation tree"]

/-- `(df['Date'] >= start) & (df['Date'] <= end)` on one cell; a NaT
cell compares False on both sides. -/
def dateInRange (p : FilterParameters) (d : Option Int) : Bool :=
  match d with
  | some d => decide (p.startDate ≤ d) && decide (d ≤ p.endDate)
  | none => false

/-- The boolean mask of app.py lines 68-70 / 91-93 applied to one
price row: Date within the closed range and Ticker equal to the
selected ticker. -/
def priceMask (p : FilterParameters) (r : RawPriceRow) : Bool :=
  dateInRange p r.date && (r.ticker == p.ticker)

/-- `row[model] == 1` on one anomaly row: the cell exists, is not NaN,
and equals 1 exactly. -/
def flagIsOne (r : AnomalyRow) (model : String) : Bool :=
  r.flags.lookup model == some (some 1)

/-- The boolean mask of app.py lines 96-99 / 101-104 applied to one
anomaly row: window, ticker, and `df[model] == 1`. -/
def anomalyMask (p : FilterParameters) (model : String) (r : AnomalyRow) : Bool :=
  dateInRange p r.date && (r.ticker == p.ticker) && flagIsOne r model

/-- A row of `model_1_merged` / `model_2_merged` (app.py lines
110-114): the anomaly row with the Adj Close attached from the
matching filtered price row. -/
structure MergedRow where
  anom : AnomalyRow
  adjClose : Option ℚ
deriving Repr, DecidableEq

/-- A row of `overlapping_anomalies` (app.py line 107): the pair of
matched rows from `model_1_anomalies` (left) and `model_2_anomalies`
(right); the shared key columns Date and Ticker are those of `left`
(equal to those of `right` by the join condition). -/
structure OverlapRow where
  left : AnomalyRow
  right : AnomalyRow
deriving Repr, DecidableEq

/-- A row of `overlapping_merged` (app.py lines 116-117). -/
structure OverlapMergedRow where
  ov : OverlapRow
  adjClose : Option ℚ
deriving Repr, DecidableEq

/-- The equi-join condition on (Date, Ticker) between an anomaly key
and a price row. -/
def matchesKey (d : Option Int) (tk : String) (r : RawPriceRow) : Bool :=
  (r.date == d) && (r.ticker == tk)

/-- `pd.merge(anoms, filtered[['Date','Ticker','Adj Close']],
on=['Date','Ticker'], how='inner')` (app.py lines 110-114): for each
anomaly row in order, one output row per matching price row. -/
def mergeWithPrices (anoms : List AnomalyRow) (prices : List RawPriceRow) :
    List MergedRow :=
  anoms.flatMap (fun a =>
    (prices.filter (matchesKey a.date a.ticker)).map
      (fun pr => { anom := a, adjClose := pr.adjClose }))

/-- `pd.merge(model_1_anomalies, model_2_anomalies, on=['Date','Ticker'])`
(app.py line 107): the inner equi-join of the two anomaly selections
on (Date, Ticker). -/
def overlappingAnomalies (xs ys : List AnomalyRow) : List OverlapRow :=
  xs.flatMap (fun a =>
    (ys.filter (fun b => (b.date == a.date) && (b.ticker == a.ticker))).map
      (fun b => { left := a, right := b }))

/-- `pd.merge(overlapping_anomalies, filtered[['Date','Ticker','Adj Close']],
on=['Date','Ticker'], how='inner')` (app.py lines 116-117). -/
def mergeOverlapWithPrices (ovs : List OverlapRow) (prices : List RawPriceRow) :
    List OverlapMergedRow :=
  ovs.flatMap (fun o =>
    (prices.filter (matchesKey o.left.date o.left.ticker)).map
      (fun pr => { ov := o, adjClose := pr.adjClose }))

/-- The derived tables of one engine invocation: the locals
`filtered_stock_df`, `model_1_anomalies`, `model_2_anomalies`,
`overlapping_anomalies`, `model_1_merged`, `model_2_merged`,
`overlapping_merged` of app.py lines 91-117. -/
structure DerivedView where
  filteredPrices : List RawPriceRow
  model1Anomalies : List AnomalyRow
  model2Anomalies : List AnomalyRow
  overlapAnomalies : List OverlapRow
  model1Merged : List MergedRow
  model2Merged : List MergedRow
  overlapMerged : List OverlapMergedRow
deriving Repr, DecidableEq

/-- The success path of the engine (app.py lines 91-117), assuming
both flag columns exist. -/
def viewOf (stock_df : List RawPriceRow) (full_data_df : AnomalyTable)
    (p : FilterParameters) : DerivedView :=
  let filtered := stock_df.filter (priceMask p)
  let m1 := full_data_df.rows.filter (anomalyMask p p.model1)
  let m2 := full_data_df.rows.filter (anomalyMask p p.model2)
  let ov := overlappingAnomalies m1 m2
  { filteredPrices := filtered
    model1Anomalies := m1
    model2Anomalies := m2
    overlapAnomalies := ov
    model1Merged := mergeWithPrices m1 filtered
    model2Merged := mergeWithPrices m2 filtered
    overlapMerged := mergeOverlapWithPrices ov filtered }

/-- The filter & overlap engine, app.py lines 57-117: the range guard
of line 57 first (`start_date > end_date` → error, nothing computed);
then the flag-column lookups of lines 99 and 104, whose failure on a
missing column (pandas `KeyError`) is `unknownModel`; otherwise the
derived tables of `viewOf`. -/
def computeView (stock_df : List RawPriceRow) (full_data_df : AnomalyTable)
    (p : FilterParameters) : Except EngineError DerivedView :=
  if p.startDate > p.endDate then .error .invalidRange
  else if p.model1 ∈ full_data_df.cols then
    if p.model2 ∈ full_data_df.cols then
      .ok (viewOf stock_df full_data_df p)
    else .error .unknownModel
  else .error .unknownModel

/-- Concrete example price table (pre-load, after cell coercion): two
good ABC rows out of order, one row with NaN Adj Close, one with NaT
Date. -/
def exRawPrices : List RawPriceRow :=
  [{ date := some 2, ticker := "ABC", adjClose := some 11 },
   { date := some 1, ticker := "ABC", adjClose := some 10 },
   { date := some 3, ticker := "ABC", adjClose := none },
   { date := none, ticker := "ABC", adjClose := some 12 }]

/-- Concrete example flag cells covering 1, 0 and NaN. -/
def exFlags : List (String × Option ℚ) :=
  [("baseline", some 1), ("svm", some 0), ("dbscan_pca", some 0),
   ("dbscan_nonpca", none), ("isolation tree", some 1)]

/-- Concrete example anomaly table with the five enumerated flag
columns. -/
def exTable : AnomalyTable :=
  { cols := model_options
    rows := [{ date := some 2, ticker := "ABC", flags := exFlags }] }

/-- Concrete example parameters selecting ABC on days 1-2 with the
baseline and svm models. -/
def exParams : FilterParameters :=
  { startDate := 1, endDate := 2, ticker := "ABC"
    model1 := "baseline", model2 := "svm" }

/-- Concrete parameters with startDate > endDate. -/
def exParamsBad : FilterParameters :=
  { startDate := 5, endDate := 2, ticker := "ABC"
    model1 := "baseline", model2 := "svm" }

/-- Concrete parameters with startDate = endDate. -/
def exParamsSame : FilterParameters :=
  { startDate := 2, endDate := 2, ticker := "ABC"
    model1 := "baseline", model2 := "svm" }

/-- Concrete parameters with a model name outside the enumeration. -/
def exParamsFoo : FilterParameters :=
  { startDate := 1, endDate := 2, ticker := "ABC"
    model1 := "baseline", model2 := "foo" }

/-- Concrete parameters selecting the same model twice. -/
def exParamsDup : FilterParameters :=
  { startDate := 1, endDate := 2, ticker := "ABC"
    model1 := "baseline", model2 := "baseline" }

/-- Concrete parameters selecting a ticker absent from both tables. -/
def exParamsZed : FilterParameters :=
  { startDate := 1, endDate := 2, ticker := "ZZZ"
    model1 := "baseline", model2 := "svm" }

theorem mem_loadPrices {raw : List RawPriceRow} {r : RawPriceRow} :
    r ∈ loadPrices raw ↔ r ∈ raw ∧ r.date.isSome ∧ r.adjClose.isSome := by
  unfold loadPrices
  rw [List.mem_insertionSort, List.mem_filter]
  simp [Bool.and_eq_true]

theorem loadPrices_sorted (raw : List RawPriceRow) :
    (loadPrices raw).Sorted priceLe :=
  List.sorted_insertionSort priceLe _

theorem mem_loadAnomalies {t : AnomalyTable} {r : AnomalyRow} :
    r ∈ (loadAnomalies t).rows ↔ r ∈ t.rows ∧ r.date.isSome := by
  unfold loadAnomalies
  rw [List.mem_insertionSort, List.mem_filter]

theorem loadAnomalies_sorted (t : AnomalyTable) :
    (loadAnomalies t).rows.Sorted anomLe :=
  List.sorted_insertionSort anomLe _

theorem computeView_ok {stock : List RawPriceRow} {t : AnomalyTable}
    {p : FilterParameters} (hr : p.startDate ≤ p.endDate)
    (h1 : p.model1 ∈ t.cols) (h2 : p.model2 ∈ t.cols) :
    computeView stock t p = Except.ok (viewOf stock t p) := by
  unfold computeView
  rw [if_neg (by omega), if_pos h1, if_pos h2]

theorem viewOf_filteredPrices (stock : List RawPriceRow) (t : AnomalyTable)
    (p : FilterParameters) :
    (viewOf stock t p).filteredPrices = stock.filter (priceMask p) := rfl

theorem viewOf_model1Anomalies (stock : List RawPriceRow) (t : AnomalyTable)
    (p : FilterParameters) :
    (viewOf stock t p).model1Anomalies =
      t.rows.filter (anomalyMask p p.model1) := rfl

theorem viewOf_model2Anomalies (stock : List RawPriceRow) (t : AnomalyTable)
    (p : FilterParameters) :
    (viewOf stock t p).model2Anomalies =
      t.rows.filter (anomalyMask p p.model2) := rfl

theorem viewOf_overlapAnomalies (stock : List RawPriceRow) (t : AnomalyTable)
    (p : FilterParameters) :
    (viewOf stock t p).overlapAnomalies =
      overlappingAnomalies (t.rows.filter (anomalyMask p p.model1))
        (t.rows.filter (anomalyMask p p.model2)) := rfl

theorem viewOf_model1Merged (stock : List RawPriceRow) (t : AnomalyTable)
    (p : FilterParameters) :
    (viewOf stock t p).model1Merged =
      mergeWithPrices (t.rows.filter (anomalyMask p p.model1))
        (stock.filter (priceMask p)) := rfl

theorem viewOf_model2Merged (stock : List RawPriceRow) (t : AnomalyTable)
    (p : FilterParameters) :
    (viewOf stock t p).model2Merged =
      mergeWithPrices (t.rows.filter (anomalyMask p p.model2))
        (stock.filter (priceMask p)) := rfl

theorem viewOf_overlapMerged (stock : List RawPriceRow) (t : AnomalyTable)
    (p : FilterParameters) :
    (viewOf stock t p).overlapMerged =
      mergeOverlapWithPrices
        (overlappingAnomalies (t.rows.filter (anomalyMask p p.model1))
          (t.rows.filter (anomalyMask p p.model2)))
        (stock.filter (priceMask p)) := rfl

theorem priceMask_eq_true {p : FilterParameters} {r : RawPriceRow} :
    priceMask p r = true ↔
      (∃ d, r.date = some d ∧ p.startDate ≤ d ∧ d ≤ p.endDate) ∧
        r.ticker = p.ticker := by
  unfold priceMask dateInRange
  cases hd : r.date with
  | none => simp
  | some d => simp

theorem anomalyMask_eq_true {p : FilterParameters} {m : String} {r : AnomalyRow} :
    anomalyMask p m r = true ↔
      dateInRange p r.date = true ∧ r.ticker = p.ticker ∧
        r.flags.lookup m = some (some 1) := by
  unfold anomalyMask flagIsOne
  simp [Bool.and_eq_true, and_assoc]

/-- C1: for every loaded price table and every valid parameter set
(startDate ≤ endDate, both selected flag columns present), the
engine's `filteredPrices` consists of exactly those price rows whose
Date lies in the closed interval [startDate, endDate] and whose
Ticker equals the selected ticker, and it is sorted ascending by
Date. -/
theorem filteredPrices_exact_and_sorted (raw : List RawPriceRow)
    (t : AnomalyTable) (p : FilterParameters)
    (hr : p.startDate ≤ p.endDate)
    (h1 : p.model1 ∈ t.cols) (h2 : p.model2 ∈ t.cols) :
    ∃ v, computeView (loadPrices raw) t p = Except.ok v ∧
      (∀ r, r ∈ v.filteredPrices ↔
        r ∈ loadPrices raw ∧
          (∃ d, r.date = some d ∧ p.startDate ≤ d ∧ d ≤ p.endDate) ∧
          r.ticker = p.ticker) ∧
      v.filteredPrices.Sorted priceLe := by
  refine ⟨viewOf (loadPrices raw) t p, computeView_ok hr h1 h2, ?_, ?_⟩
  · intro r
    rw [viewOf_filteredPrices, List.mem_filter, priceMask_eq_true]
  · rw [viewOf_filteredPrices]
    exact (loadPrices_sorted raw).filter _

/-- Witness for C1 at the concrete example tables and parameters. -/
theorem filteredPrices_exact_and_sorted_witness :
    ∃ v, computeView (loadPrices exRawPrices) exTable exParams = Except.ok v ∧
      (∀ r, r ∈ v.filteredPrices ↔
        r ∈ loadPrices exRawPrices ∧
          (∃ d, r.date = some d ∧ exParams.startDate ≤ d ∧
            d ≤ exParams.endDate) ∧
          r.ticker = exParams.ticker) ∧
      v.filteredPrices.Sorted priceLe :=
  filteredPrices_exact_and_sorted exRawPrices exTable exParams
    (by decide) (by decide) (by decide)

/-- C5: rows whose Date (or, for the price table, Adj Close) failed
to parse are excluded entirely from the loader output, which is a
total function (no error path), and both loader outputs are sorted
ascending by Date. -/
theorem loader_drops_and_sorts (rawP : List RawPriceRow) (t : AnomalyTable) :
    (∀ r, r ∈ loadPrices rawP ↔
      r ∈ rawP ∧ r.date.isSome ∧ r.adjClose.isSome) ∧
    (loadPrices rawP).Sorted priceLe ∧
    (∀ a, a ∈ (loadAnomalies t).rows ↔ a ∈ t.rows ∧ a.date.isSome) ∧
    (loadAnomalies t).rows.Sorted anomLe :=
  ⟨fun _ => mem_loadPrices, loadPrices_sorted rawP,
   fun _ => mem_loadAnomalies, loadAnomalies_sorted t⟩

/-- C4: startDate > endDate makes the engine fail with InvalidRange
before computing anything; startDate = endDate succeeds (given the
flag columns exist) and every filtered price row carries exactly that
single day. -/
theorem range_guard (stock : List RawPriceRow) (t : AnomalyTable)
    (p : FilterParameters) :
    (p.startDate > p.endDate →
      computeView stock t p = Except.error EngineError.invalidRange) ∧
    (p.startDate = p.endDate → p.model1 ∈ t.cols → p.model2 ∈ t.cols →
      ∃ v, computeView stock t p = Except.ok v ∧
        ∀ r ∈ v.filteredPrices,
          r.date = some p.startDate ∧ r.ticker = p.ticker) := by
  constructor
  · intro h
    unfold computeView
    rw [if_pos h]
  · intro heq h1 h2
    refine ⟨viewOf stock t p, computeView_ok (le_of_eq heq) h1 h2, ?_⟩
    intro r hrm
    rw [viewOf_filteredPrices, List.mem_filter, priceMask_eq_true] at hrm
    obtain ⟨-, ⟨d, hd, hd1, hd2⟩, htk⟩ := hrm
    have hds : d = p.startDate := by omega
    exact ⟨hds ▸ hd, htk⟩

/-- Witness for C4 at concrete inputs: a reversed range errors, an
equal range succeeds with same-day rows only. -/
theorem range_guard_witness :
    computeView exRawPrices exTable exParamsBad =
      Except.error EngineError.invalidRange ∧
    ∃ v, computeView exRawPrices exTable exParamsSame = Except.ok v ∧
      ∀ r ∈ v.filteredPrices,
        r.date = some exParamsSame.startDate ∧
          r.ticker = exParamsSame.ticker :=
  ⟨(range_guard exRawPrices exTable exParamsBad).1 (by decide),
   (range_guard exRawPrices exTable exParamsSame).2 rfl (by decide) (by decide)⟩

/-- C3: when every flag column of the anomaly table is one of the
enumerated model names, a request naming a model outside the
enumeration fails (the flag-column lookup raises), and no view is
returned. -/
theorem unknown_model_rejected (stock : List RawPriceRow) (t : AnomalyTable)
    (p : FilterParameters) (hr : p.startDate ≤ p.endDate)
    (hcols : ∀ m ∈ t.cols, m ∈ model_options)
    (hm : p.model1 ∉ model_options ∨ p.model2 ∉ model_options) :
    computeView stock t p = Except.error EngineError.unknownModel := by
  unfold computeView
  rw [if_neg (by omega)]
  rcases hm with hm | hm
  · rw [if_neg (fun h => hm (hcols _ h))]
  · by_cases h1 : p.model1 ∈ t.cols
    · rw [if_pos h1, if_neg (fun h => hm (hcols _ h))]
    · rw [if_neg h1]

/-- Witness for C3: model2 = "foo" is rejected on the concrete
table. -/
theorem unknown_model_rejected_witness :
    computeView exRawPrices exTable exParamsFoo =
      Except.error EngineError.unknownModel :=
  unknown_model_rejected exRawPrices exTable exParamsFoo (by decide)
    (fun _ hm => hm) (Or.inr (by decide))

/-- C9: the engine is a pure function of its arguments: two calls on
value-identical tables and parameters return value-identical
results. -/
theorem computeView_deterministic (s1 s2 : List RawPriceRow)
    (t1 t2 : AnomalyTable) (p1 p2 : FilterParameters)
    (hs : s1 = s2) (ht : t1 = t2) (hp : p1 = p2) :
    computeView s1 t1 p1 = computeView s2 t2 p2 := by
  rw [hs, ht, hp]

/-- Witness for C9 at the concrete inputs. -/
theorem computeView_deterministic_witness :
    computeView exRawPrices exTable exParams =
      computeView exRawPrices exTable exParams :=
  computeView_deterministic exRawPrices exRawPrices exTable exTable
    exParams exParams rfl rfl rfl

theorem mem_mergeWithPrices {anoms : List AnomalyRow}
    {prices : List RawPriceRow} {m : MergedRow} :
    m ∈ mergeWithPrices anoms prices ↔
      m.anom ∈ anoms ∧ ∃ pr ∈ prices, pr.date = m.anom.date ∧
        pr.ticker = m.anom.ticker ∧ pr.adjClose = m.adjClose := by
  unfold mergeWithPrices
  rw [List.mem_flatMap]
  constructor
  · rintro ⟨a, ha, hm⟩
    rw [List.mem_map] at hm
    obtain ⟨pr, hpr, hmk⟩ := hm
    rw [List.mem_filter] at hpr
    obtain ⟨hpmem, hkey⟩ := hpr
    unfold matchesKey at hkey
    rw [Bool.and_eq_true, beq_iff_eq, beq_iff_eq] at hkey
    cases hmk
    exact ⟨ha, pr, hpmem, hkey.1, hkey.2, rfl⟩
  · rintro ⟨ha, pr, hpmem, hd, htk, hc⟩
    refine ⟨m.anom, ha, ?_⟩
    rw [List.mem_map]
    refine ⟨pr, ?_, ?_⟩
    · rw [List.mem_filter]
      refine ⟨hpmem, ?_⟩
      unfold matchesKey
      rw [Bool.and_eq_true, beq_iff_eq, beq_iff_eq]
      exact ⟨hd, htk⟩
    · rw [hc]

theorem mem_overlappingAnomalies {xs ys : List AnomalyRow} {o : OverlapRow} :
    o ∈ overlappingAnomalies xs ys ↔
      o.left ∈ xs ∧ o.right ∈ ys ∧ o.right.date = o.left.date ∧
        o.right.ticker = o.left.ticker := by
  unfold overlappingAnomalies
  rw [List.mem_flatMap]
  constructor
  · rintro ⟨a, ha, hm⟩
    rw [List.mem_map] at hm
    obtain ⟨b, hb, hmk⟩ := hm
    rw [List.mem_filter] at hb
    obtain ⟨hbmem, hkey⟩ := hb
    rw [Bool.and_eq_true, beq_iff_eq, beq_iff_eq] at hkey
    cases hmk
    exact ⟨ha, hbmem, hkey.1, hkey.2⟩
  · rintro ⟨hl, hrm, hd, htk⟩
    refine ⟨o.left, hl, ?_⟩
    rw [List.mem_map]
    refine ⟨o.right, ?_, rfl⟩
    rw [List.mem_filter]
    refine ⟨hrm, ?_⟩
    rw [Bool.and_eq_true, beq_iff_eq, beq_iff_eq]
    exact ⟨hd, htk⟩

theorem mem_mergeOverlapWithPrices {ovs : List OverlapRow}
    {prices : List RawPriceRow} {m : OverlapMergedRow} :
    m ∈ mergeOverlapWithPrices ovs prices ↔
      m.ov ∈ ovs ∧ ∃ pr ∈ prices, pr.date = m.ov.left.date ∧
        pr.ticker = m.ov.left.ticker ∧ pr.adjClose = m.adjClose := by
  unfold mergeOverlapWithPrices
  rw [List.mem_flatMap]
  constructor
  · rintro ⟨o, ho, hm⟩
    rw [List.mem_map] at hm
    obtain ⟨pr, hpr, hmk⟩ := hm
    rw [List.mem_filter] at hpr
    obtain ⟨hpmem, hkey⟩ := hpr
    unfold matchesKey at hkey
    rw [Bool.and_eq_true, beq_iff_eq, beq_iff_eq] at hkey
    cases hmk
    exact ⟨ho, pr, hpmem, hkey.1, hkey.2, rfl⟩
  · rintro ⟨ho, pr, hpmem, hd, htk, hc⟩
    refine ⟨m.ov, ho, ?_⟩
    rw [List.mem_map]
    refine ⟨pr, ?_, ?_⟩
    · rw [List.mem_filter]
      refine ⟨hpmem, ?_⟩
      unfold matchesKey
      rw [Bool.and_eq_true, beq_iff_eq, beq_iff_eq]
      exact ⟨hd, htk⟩
    · rw [hc]

/-- C10: an anomaly row inside the selected window and ticker is kept
by a model's selection iff that model's flag cell equals exactly 1;
a 0, NaN, missing, or any other value excludes it, and no error is
raised. -/
theorem flag_one_membership (stock : List RawPriceRow) (t : AnomalyTable)
    (p : FilterParameters) (hr : p.startDate ≤ p.endDate)
    (h1 : p.model1 ∈ t.cols) (h2 : p.model2 ∈ t.cols) :
    ∃ v, computeView stock t p = Except.ok v ∧
      ∀ a ∈ t.rows, dateInRange p a.date = true → a.ticker = p.ticker →
        ((a ∈ v.model1Anomalies ↔
          a.flags.lookup p.model1 = some (some 1)) ∧
         (a ∈ v.model2Anomalies ↔
          a.flags.lookup p.model2 = some (some 1))) := by
  refine ⟨viewOf stock t p, computeView_ok hr h1 h2, ?_⟩
  intro a ha hd htk
  constructor
  · rw [viewOf_model1Anomalies, List.mem_filter, anomalyMask_eq_true]
    exact ⟨fun h => h.2.2.2, fun hl => ⟨ha, hd, htk, hl⟩⟩
  · rw [viewOf_model2Anomalies, List.mem_filter, anomalyMask_eq_true]
    exact ⟨fun h => h.2.2.2, fun hl => ⟨ha, hd, htk, hl⟩⟩

/-- Witness for C10: on the concrete table, the baseline flag 1 keeps
the row and the svm flag 0 drops it. -/
theorem flag_one_membership_witness :
    ∃ v, computeView exRawPrices exTable exParams = Except.ok v ∧
      ∀ a ∈ exTable.rows,
        dateInRange exParams a.date = true → a.ticker = exParams.ticker →
        ((a ∈ v.model1Anomalies ↔
          a.flags.lookup exParams.model1 = some (some 1)) ∧
         (a ∈ v.model2Anomalies ↔
          a.flags.lookup exParams.model2 = some (some 1))) :=
  flag_one_membership exRawPrices exTable exParams
    (by decide) (by decide) (by decide)

/-- C8: when the selected ticker occurs in neither table (and the
parameters are otherwise valid), the engine succeeds and every
derived table is empty; emptiness is not an error. -/
theorem empty_result_ok (stock : List RawPriceRow) (t : AnomalyTable)
    (p : FilterParameters) (hr : p.startDate ≤ p.endDate)
    (h1 : p.model1 ∈ t.cols) (h2 : p.model2 ∈ t.cols)
    (hstock : ∀ r ∈ stock, r.ticker ≠ p.ticker)
    (hanom : ∀ r ∈ t.rows, r.ticker ≠ p.ticker) :
    ∃ v, computeView stock t p = Except.ok v ∧
      v.filteredPrices = [] ∧
      v.model1Anomalies = [] ∧ v.model2Anomalies = [] ∧
      v.overlapAnomalies = [] ∧
      v.model1Merged = [] ∧ v.model2Merged = [] ∧
      v.overlapMerged = [] := by
  refine ⟨viewOf stock t p, computeView_ok hr h1 h2, ?_⟩
  have hf : stock.filter (priceMask p) = [] := by
    rw [List.filter_eq_nil_iff]
    intro r hrm hmask
    exact hstock r hrm (priceMask_eq_true.mp hmask).2
  have hm1 : t.rows.filter (anomalyMask p p.model1) = [] := by
    rw [List.filter_eq_nil_iff]
    intro r hrm hmask
    exact hanom r hrm (anomalyMask_eq_true.mp hmask).2.1
  have hm2 : t.rows.filter (anomalyMask p p.model2) = [] := by
    rw [List.filter_eq_nil_iff]
    intro r hrm hmask
    exact hanom r hrm (anomalyMask_eq_true.mp hmask).2.1
  refine ⟨?_, ?_, ?_, ?_, ?_, ?_, ?_⟩
  · rw [viewOf_filteredPrices, hf]
  · rw [viewOf_model1Anomalies, hm1]
  · rw [viewOf_model2Anomalies, hm2]
  · rw [viewOf_overlapAnomalies, hm1, hm2]; rfl
  · rw [viewOf_model1Merged, hm1]; rfl
  · rw [viewOf_model2Merged, hm2]; rfl
  · rw [viewOf_overlapMerged, hm1, hm2]; rfl

/-- Witness for C8: the ticker ZZZ is absent from both concrete
tables and yields the all-empty view. -/
theorem empty_result_ok_witness :
    ∃ v, computeView exRawPrices exTable exParamsZed = Except.ok v ∧
      v.filteredPrices = [] ∧
      v.model1Anomalies = [] ∧ v.model2Anomalies = [] ∧
      v.overlapAnomalies = [] ∧
      v.model1Merged = [] ∧ v.model2Merged = [] ∧
      v.overlapMerged = [] :=
  empty_result_ok exRawPrices exTable exParamsZed
    (by decide) (by decide) (by decide) (by decide) (by decide)

/-- C7: every row of each joined anomaly view carries the Adj Close
of a matching filtered price row on (Date, Ticker); since the loader
dropped every row with a missing Adj Close, no joined row has a
missing Adj Close, and anomaly rows without a price match are
absent. -/
theorem join_safety (raw : List RawPriceRow) (t : AnomalyTable)
    (p : FilterParameters) (hr : p.startDate ≤ p.endDate)
    (h1 : p.model1 ∈ t.cols) (h2 : p.model2 ∈ t.cols) :
    ∃ v, computeView (loadPrices raw) t p = Except.ok v ∧
      (∀ m ∈ v.model1Merged, m.adjClose.isSome ∧
        ∃ pr ∈ v.filteredPrices, pr.date = m.anom.date ∧
          pr.ticker = m.anom.ticker ∧ pr.adjClose = m.adjClose) ∧
      (∀ m ∈ v.model2Merged, m.adjClose.isSome ∧
        ∃ pr ∈ v.filteredPrices, pr.date = m.anom.date ∧
          pr.ticker = m.anom.ticker ∧ pr.adjClose = m.adjClose) ∧
      (∀ m ∈ v.overlapMerged, m.adjClose.isSome ∧
        ∃ pr ∈ v.filteredPrices, pr.date = m.ov.left.date ∧
          pr.ticker = m.ov.left.ticker ∧ pr.adjClose = m.adjClose) := by
  refine ⟨viewOf (loadPrices raw) t p, computeView_ok hr h1 h2, ?_, ?_, ?_⟩
  · intro m hm
    rw [viewOf_model1Merged, mem_mergeWithPrices] at hm
    obtain ⟨-, pr, hpr, hd, htk, hc⟩ := hm
    refine ⟨?_, ?_⟩
    · rw [← hc]
      exact (mem_loadPrices.mp (List.mem_of_mem_filter hpr)).2.2
    · rw [viewOf_filteredPrices]
      exact ⟨pr, hpr, hd, htk, hc⟩
  · intro m hm
    rw [viewOf_model2Merged, mem_mergeWithPrices] at hm
    obtain ⟨-, pr, hpr, hd, htk, hc⟩ := hm
    refine ⟨?_, ?_⟩
    · rw [← hc]
      exact (mem_loadPrices.mp (List.mem_of_mem_filter hpr)).2.2
    · rw [viewOf_filteredPrices]
      exact ⟨pr, hpr, hd, htk, hc⟩
  · intro m hm
    rw [viewOf_overlapMerged, mem_mergeOverlapWithPrices] at hm
    obtain ⟨-, pr, hpr, hd, htk, hc⟩ := hm
    refine ⟨?_, ?_⟩
    · rw [← hc]
      exact (mem_loadPrices.mp (List.mem_of_mem_filter hpr)).2.2
    · rw [viewOf_filteredPrices]
      exact ⟨pr, hpr, hd, htk, hc⟩

/-- Witness for C7 at the concrete inputs. -/
theorem join_safety_witness :
    ∃ v, computeView (loadPrices exRawPrices) exTable exParams =
        Except.ok v ∧
      (∀ m ∈ v.model1Merged, m.adjClose.isSome ∧
        ∃ pr ∈ v.filteredPrices, pr.date = m.anom.date ∧
          pr.ticker = m.anom.ticker ∧ pr.adjClose = m.adjClose) ∧
      (∀ m ∈ v.model2Merged, m.adjClose.isSome ∧
        ∃ pr ∈ v.filteredPrices, pr.date = m.anom.date ∧
          pr.ticker = m.anom.ticker ∧ pr.adjClose = m.adjClose) ∧
      (∀ m ∈ v.overlapMerged, m.adjClose.isSome ∧
        ∃ pr ∈ v.filteredPrices, pr.date = m.ov.left.date ∧
          pr.ticker = m.ov.left.ticker ∧ pr.adjClose = m.adjClose) :=
  join_safety exRawPrices exTable exParams (by decide) (by decide) (by decide)

/-- C2: every overlap row's (Date, Ticker) key is carried by a row of
each model's anomaly selection, and when the two selected models are
equal, the joined overlap view covers exactly the keys of the joined
first-model view. -/
theorem overlap_law (stock : List RawPriceRow) (t : AnomalyTable)
    (p : FilterParameters) (hr : p.startDate ≤ p.endDate)
    (h1 : p.model1 ∈ t.cols) (h2 : p.model2 ∈ t.cols) :
    ∃ v, computeView stock t p = Except.ok v ∧
      (∀ o ∈ v.overlapAnomalies,
        (∃ a ∈ v.model1Anomalies,
          a.date = o.left.date ∧ a.ticker = o.left.ticker) ∧
        (∃ b ∈ v.model2Anomalies,
          b.date = o.left.date ∧ b.ticker = o.left.ticker)) ∧
      (p.model1 = p.model2 →
        ∀ d tk,
          (∃ m ∈ v.overlapMerged,
            m.ov.left.date = d ∧ m.ov.left.ticker = tk) ↔
          (∃ m ∈ v.model1Merged,
            m.anom.date = d ∧ m.anom.ticker = tk)) := by
  refine ⟨viewOf stock t p, computeView_ok hr h1 h2, ?_, ?_⟩
  · intro o ho
    rw [viewOf_overlapAnomalies, mem_overlappingAnomalies] at ho
    obtain ⟨hl, hrm, hd, htk⟩ := ho
    constructor
    · rw [viewOf_model1Anomalies]
      exact ⟨o.left, hl, rfl, rfl⟩
    · rw [viewOf_model2Anomalies]
      exact ⟨o.right, hrm, hd, htk⟩
  · intro hm d tk
    rw [viewOf_overlapMerged, viewOf_model1Merged, ← hm]
    constructor
    · rintro ⟨m, hmm, hdd, htt⟩
      rw [mem_mergeOverlapWithPrices] at hmm
      obtain ⟨ho, pr, hpr, hd2, ht2, hc⟩ := hmm
      rw [mem_overlappingAnomalies] at ho
      refine ⟨{ anom := m.ov.left, adjClose := m.adjClose }, ?_, hdd, htt⟩
      rw [mem_mergeWithPrices]
      exact ⟨ho.1, pr, hpr, hd2, ht2, hc⟩
    · rintro ⟨m, hmm, hdd, htt⟩
      rw [mem_mergeWithPrices] at hmm
      obtain ⟨ha, pr, hpr, hd2, ht2, hc⟩ := hmm
      refine ⟨{ ov := { left := m.anom, right := m.anom },
                adjClose := m.adjClose }, ?_, hdd, htt⟩
      rw [mem_mergeOverlapWithPrices]
      refine ⟨?_, pr, hpr, hd2, ht2, hc⟩
      rw [mem_overlappingAnomalies]
      exact ⟨ha, ha, rfl, rfl⟩

/-- Witness for C2, instantiated with the same model selected
twice. -/
theorem overlap_law_witness :
    ∃ v, computeView exRawPrices exTable exParamsDup = Except.ok v ∧
      (∀ o ∈ v.overlapAnomalies,
        (∃ a ∈ v.model1Anomalies,
          a.date = o.left.date ∧ a.ticker = o.left.ticker) ∧
        (∃ b ∈ v.model2Anomalies,
          b.date = o.left.date ∧ b.ticker = o.left.ticker)) ∧
      (exParamsDup.model1 = exParamsDup.model2 →
        ∀ d tk,
          (∃ m ∈ v.overlapMerged,
            m.ov.left.date = d ∧ m.ov.left.ticker = tk) ↔
          (∃ m ∈ v.model1Merged,
            m.anom.date = d ∧ m.anom.ticker = tk)) :=
  overlap_law exRawPrices exTable exParamsDup
    (by decide) (by decide) (by decide)

/-- C6 counterexample: header matching is not case-insensitive — a
header differing from the canonical name only in letter case is not
matched, while a header differing only in surrounding whitespace
is. -/
theorem header_matching_case_counterexample :
    hasColumn ["date", "ticker", "adj close"] "Date" = false ∧
    hasColumn [" Date ", "Ticker", "  Adj Close"] "Date" = true := by
  constructor <;> decide

/-- C6 amended: the loader strips surrounding whitespace from header
names and then matches required columns by exact, case-sensitive
equality: a required column is found iff some header equals the
canonical name after stripping. -/
theorem header_matching_strips_whitespace (headers : List String)
    (name : String) :
    hasColumn headers name = true ↔ ∃ h ∈ headers, strip h = name := by
  simp only [hasColumn, List.contains_iff_exists_mem_beq, List.mem_map,
    beq_iff_eq]
  constructor
  · rintro ⟨x, ⟨h, hh, rfl⟩, rfl⟩
    exact ⟨h, hh, rfl⟩
  · rintro ⟨h, hh, rfl⟩
    exact ⟨strip h, ⟨h, hh, rfl⟩, rfl⟩
